import Mathlib

/-!
Verification development for the `toukon_lambda` repository
(`src/python-lambda/lambda_function.py`).

The repository is a single AWS-Lambda-style request handler.  This file
shallowly embeds the Python code: Python's JSON-compatible runtime values
become the inductive `PyVal` (with an extra constructor `obj` for values that
have no JSON representation, such as `bytes` or `set` instances);
`json.dumps` becomes `dumps` (faithful to CPython's output with
`ensure_ascii=False` and either `indent=2` or the compact default, and
erroring exactly on the first value with no JSON representation, with
CPython's `TypeError` message); the clock and interpreter version become an
explicit `World`; and `lambda_handler` becomes a total function returning an
`Except` whose `.error` case would be an exception escaping to the host
runtime.  A fueled JSON parser `parseJson` (standard RFC 8259 grammar,
integer numerals) is verified against `dumps` to settle the round-trip
property of the spec.
-/

/-- A Python runtime value as far as the handler can observe it: the
JSON-compatible values (`None`, `bool`, `int`, `str`, `list`, `dict` with
string keys) plus `obj ty`, an instance of some other type `ty` that
`json.dumps` rejects (for example `bytes`).  Floats are outside the model. -/
inductive PyVal where
  | null
  | bool (b : Bool)
  | int (i : Int)
  | str (s : String)
  | list (xs : List PyVal)
  | dict (kvs : List (String × PyVal))
  | obj (ty : String)

/-- Python `dict.get`, returning the value of the first matching key. -/
def dictGet (kvs : List (String × PyVal)) (k : String) : Option PyVal :=
  match kvs with
  | [] => Option.none
  | (k', v) :: rest => if k' = k then some v else dictGet rest k

/-- Field access on a `PyVal` dictionary (used to inspect response bodies). -/
def pvGet (v : PyVal) (k : String) : Option PyVal :=
  match v with
  | .dict kvs => dictGet kvs k
  | _ => Option.none

mutual
/-- The type tag of the first value in (depth-first, insertion-order)
traversal that `json.dumps` cannot encode, if any.  CPython's serializer
walks the structure in exactly this order and raises at the first such
value. -/
def findBad (v : PyVal) : Option String :=
  match v with
  | .obj ty => some ty
  | .list xs => findBadItems xs
  | .dict kvs => findBadFields kvs
  | _ => Option.none
termination_by structural v

/-- First non-serializable value inside a list, in order. -/
def findBadItems (l : List PyVal) : Option String :=
  match l with
  | [] => Option.none
  | x :: xs =>
    match findBad x with
    | some ty => some ty
    | Option.none => findBadItems xs
termination_by structural l

/-- First non-serializable value among a dictionary's values, in order. -/
def findBadFields (l : List (String × PyVal)) : Option String :=
  match l with
  | [] => Option.none
  | (_, v) :: kvs =>
    match findBad v with
    | some ty => some ty
    | Option.none => findBadFields kvs
termination_by structural l
end

/-- Whether `json.dumps` accepts the value (no `obj` anywhere inside). -/
def serializable (v : PyVal) : Bool := (findBad v).isNone

/-- Lowercase hexadecimal digit character for `n < 16`. -/
def hexChar (n : Nat) : Char :=
  if n < 10 then Char.ofNat (48 + n) else Char.ofNat (87 + n)

/-- How CPython's `json.dumps` with `ensure_ascii=False` writes one string
character: `"` and `\` get a backslash escape, the five controls with short
escapes use them, every other control below U+0020 becomes `\u00xx`, and all
remaining characters (including all non-ASCII) are written literally. -/
def escapeChar (c : Char) : List Char :=
  if c = '"' then ['\\', '"']
  else if c = '\\' then ['\\', '\\']
  else if c = '\n' then ['\\', 'n']
  else if c = '\t' then ['\\', 't']
  else if c = '\r' then ['\\', 'r']
  else if c.toNat = 8 then ['\\', 'b']
  else if c.toNat = 12 then ['\\', 'f']
  else if c.toNat < 32 then
    ['\\', 'u', '0', '0', hexChar (c.toNat / 16), hexChar (c.toNat % 16)]
  else [c]

/-- A JSON string literal: quote, escaped characters, quote. -/
def strChars (s : String) : List Char :=
  '"' :: (s.data.flatMap escapeChar ++ ['"'])

/-- Decimal digit characters of `n`, most significant first, by recursion on
a fuel bound (`fuel ≥ n` suffices; division by ten shrinks fast). -/
def natCharsAux (fuel n : Nat) : List Char :=
  match fuel with
  | 0 => [Char.ofNat (48 + n % 10)]
  | fuel + 1 =>
    if n < 10 then [Char.ofNat (48 + n)]
    else natCharsAux fuel (n / 10) ++ [Char.ofNat (48 + n % 10)]

/-- Decimal digit characters of a natural number, most significant first. -/
def natChars (n : Nat) : List Char := natCharsAux n n

/-- Decimal characters of an integer, as Python's `repr`/JSON write it. -/
def intChars (i : Int) : List Char :=
  (if i < 0 then ['-'] else []) ++ natChars i.natAbs

/-- Whitespace `json.dumps` emits directly after an opening bracket whose
container is at nesting level `lvl`: nothing in compact mode, a newline plus
`w * (lvl + 1)` spaces with `indent=w`. -/
def openGap (w : Option Nat) (lvl : Nat) : List Char :=
  match w with
  | Option.none => []
  | some k => '\n' :: List.replicate (k * (lvl + 1)) ' '

/-- Whitespace after an item separator comma at container level `lvl`: one
space in compact mode (CPython's default `', '`), a newline plus indentation
with `indent=w`. -/
def sepGap (w : Option Nat) (lvl : Nat) : List Char :=
  match w with
  | Option.none => [' ']
  | some k => '\n' :: List.replicate (k * (lvl + 1)) ' '

/-- Whitespace before a closing bracket at container level `lvl`: nothing in
compact mode, a newline plus `w * lvl` spaces with `indent=w`. -/
def closeGap (w : Option Nat) (lvl : Nat) : List Char :=
  match w with
  | Option.none => []
  | some k => '\n' :: List.replicate (k * lvl) ' '

/-- The keyword `json.dumps` writes for Python `None`. -/
def nullChars : List Char := ['n', 'u', 'l', 'l']

/-- The keyword `json.dumps` writes for Python `True`. -/
def trueChars : List Char := ['t', 'r', 'u', 'e']

/-- The keyword `json.dumps` writes for Python `False`. -/
def falseChars : List Char := ['f', 'a', 'l', 's', 'e']

mutual
/-- Characters `json.dumps(v, ensure_ascii=False, indent=w)` produces for a
serializable value sitting at nesting level `lvl` (the `obj` case is dead
there; it renders as nothing).  Both key separator variants are `': '`. -/
def serVal (w : Option Nat) (lvl : Nat) (v : PyVal) : List Char :=
  match v with
  | .null => nullChars
  | .bool b => if b then trueChars else falseChars
  | .int i => intChars i
  | .str s => strChars s
  | .list [] => ['[', ']']
  | .list (x :: xs) =>
    '[' :: (openGap w lvl ++ serVal w (lvl + 1) x ++ serItems w lvl xs
      ++ closeGap w lvl ++ [']'])
  | .dict [] => ['{', '}']
  | .dict ((k, kv) :: kvs) =>
    '{' :: (openGap w lvl ++ strChars k ++ ':' :: ' ' :: serVal w (lvl + 1) kv
      ++ serFields w lvl kvs ++ closeGap w lvl ++ ['}'])
  | .obj _ => []
termination_by structural v

/-- The `, item` tail of a list at container level `lvl`. -/
def serItems (w : Option Nat) (lvl : Nat) (l : List PyVal) : List Char :=
  match l with
  | [] => []
  | x :: xs => ',' :: (sepGap w lvl ++ serVal w (lvl + 1) x ++ serItems w lvl xs)
termination_by structural l

/-- The `, "key": value` tail of a dictionary at container level `lvl`. -/
def serFields (w : Option Nat) (lvl : Nat) (l : List (String × PyVal)) : List Char :=
  match l with
  | [] => []
  | (k, v) :: kvs =>
    ',' :: (sepGap w lvl ++ strChars k ++ ':' :: ' ' :: serVal w (lvl + 1) v
      ++ serFields w lvl kvs)
termination_by structural l
end

/-- The model of `json.dumps(v, ensure_ascii=False, indent=w)`: CPython's
`TypeError` (with its message) at the first non-serializable value, the
rendered text otherwise. -/
def dumps (w : Option Nat) (v : PyVal) : Except String String :=
  match findBad v with
  | some ty => .error ("Object of type " ++ ty ++ " is not JSON serializable")
  | Option.none => .ok (String.mk (serVal w 0 v))

/-- JSON (and Python) whitespace: space, tab, line feed, carriage return. -/
def isWsChar (c : Char) : Bool :=
  c.toNat = 32 || c.toNat = 9 || c.toNat = 10 || c.toNat = 13

/-- Drop leading whitespace. -/
def dropWs : List Char → List Char
  | c :: cs => if isWsChar c then dropWs cs else c :: cs
  | [] => []

/-- Decimal digit test. -/
def isDigitChar (c : Char) : Bool := 48 ≤ c.toNat && c.toNat ≤ 57

/-- Split off a maximal run of decimal digits. -/
def grabDigits : List Char → List Char × List Char
  | c :: cs =>
    if isDigitChar c then
      let (ds, r) := grabDigits cs
      (c :: ds, r)
    else ([], c :: cs)
  | [] => ([], [])

/-- Numeric value of a run of decimal digits. -/
def digitsNat (ds : List Char) : Nat :=
  ds.foldl (fun acc c => acc * 10 + (c.toNat - 48)) 0

/-- Numeric value of one hexadecimal digit character. -/
def hexNat (c : Char) : Option Nat :=
  if '0' ≤ c && c ≤ '9' then some (c.toNat - 48)
  else if 'a' ≤ c && c ≤ 'f' then some (c.toNat - 87)
  else if 'A' ≤ c && c ≤ 'F' then some (c.toNat - 55)
  else none

/-- The character named by a two-character JSON escape. -/
def shortEscape (e : Char) : Option Char :=
  if e = 'n' then some '\n'
  else if e = 't' then some '\t'
  else if e = 'r' then some '\r'
  else if e = 'b' then some (Char.ofNat 8)
  else if e = 'f' then some (Char.ofNat 12)
  else if e = '"' || e = '\\' || e = '/' then some e
  else none

/-- Scan a JSON string body after its opening quote, unescaping as we go;
returns the content (via a reversed accumulator) and the input after the
closing quote. -/
def scanStr (acc : List Char) : List Char → Option (List Char × List Char)
  | '"' :: rest => some (acc.reverse, rest)
  | '\\' :: 'u' :: a :: b :: c :: d :: rest =>
    match hexNat a, hexNat b, hexNat c, hexNat d with
    | some va, some vb, some vc, some vd =>
      scanStr (Char.ofNat (((va * 16 + vb) * 16 + vc) * 16 + vd) :: acc) rest
    | _, _, _, _ => none
  | '\\' :: e :: rest =>
    match shortEscape e with
    | some ch => scanStr (ch :: acc) rest
    | Option.none => none
  | c :: rest => scanStr (c :: acc) rest
  | [] => none

mutual
/-- Recursive-descent JSON value parser (fuel-bounded; `parseJson` supplies
enough fuel for any input).  Returns the value and the unconsumed input. -/
def jparse (fuel : Nat) (cs : List Char) : Option (PyVal × List Char) :=
  match fuel with
  | 0 => none
  | fuel + 1 =>
    match dropWs cs with
    | 'n' :: more =>
      (match more with
       | 'u' :: 'l' :: 'l' :: r => some (.null, r)
       | _ => none)
    | 't' :: more =>
      (match more with
       | 'r' :: 'u' :: 'e' :: r => some (.bool true, r)
       | _ => none)
    | 'f' :: more =>
      (match more with
       | 'a' :: 'l' :: 's' :: 'e' :: r => some (.bool false, r)
       | _ => none)
    | '"' :: r =>
      match scanStr [] r with
      | some (content, r') => some (.str (String.mk content), r')
      | Option.none => none
    | '[' :: r =>
      (match dropWs r with
       | [] => none
       | c :: r' =>
         if c = ']' then some (.list [], r')
         else
           match jparseItems fuel (c :: r') with
           | some (vs, r2) => some (.list vs, r2)
           | Option.none => none)
    | '{' :: r =>
      (match dropWs r with
       | [] => none
       | c :: r' =>
         if c = '}' then some (.dict [], r')
         else
           match jparseFields fuel (c :: r') with
           | some (kvs, r2) => some (.dict kvs, r2)
           | Option.none => none)
    | '-' :: r =>
      (match grabDigits r with
       | ([], _) => none
       | (ds, r') => some (.int (-(digitsNat ds : Int)), r'))
    | c :: r =>
      if isDigitChar c then
        match grabDigits (c :: r) with
        | (ds, r') => some (.int (digitsNat ds : Int), r')
      else none
    | [] => none
termination_by structural fuel

/-- One or more comma-separated array elements, consuming the closing `]`. -/
def jparseItems (fuel : Nat) (cs : List Char) : Option (List PyVal × List Char) :=
  match fuel with
  | 0 => none
  | fuel + 1 =>
    match jparse fuel cs with
    | some (v, r) =>
      (match dropWs r with
       | ',' :: r' =>
         (match jparseItems fuel r' with
          | some (vs, r2) => some (v :: vs, r2)
          | Option.none => none)
       | ']' :: r' => some ([v], r')
       | _ => none)
    | Option.none => none
termination_by structural fuel

/-- One or more comma-separated object members, consuming the closing `}`. -/
def jparseFields (fuel : Nat) (cs : List Char) :
    Option (List (String × PyVal) × List Char) :=
  match fuel with
  | 0 => none
  | fuel + 1 =>
    match dropWs cs with
    | '"' :: r =>
      (match scanStr [] r with
       | some (kcs, r1) =>
         (match dropWs r1 with
          | ':' :: r2 =>
            (match jparse fuel r2 with
             | some (v, r3) =>
               (match dropWs r3 with
                | ',' :: r4 =>
                  (match jparseFields fuel r4 with
                   | some (kvs, r5) => some ((String.mk kcs, v) :: kvs, r5)
                   | Option.none => none)
                | '}' :: r4 => some ([(String.mk kcs, v)], r4)
                | _ => none)
             | Option.none => none)
          | _ => none)
       | Option.none => none)
    | _ => none
termination_by structural fuel
end

/-- Parse a complete JSON document: one value, then only whitespace. -/
def parseJson (s : String) : Option PyVal :=
  match jparse (s.data.length + 1) s.data with
  | some (v, r) => if dropWs r = [] then some v else none
  | Option.none => none

/-- Escaping used by Python's `repr` for one string character, given the
chosen quote character `q`. -/
def reprEscape (q c : Char) : List Char :=
  if c = '\\' then ['\\', '\\']
  else if c = q then ['\\', q]
  else if c = '\n' then ['\\', 'n']
  else if c = '\r' then ['\\', 'r']
  else if c = '\t' then ['\\', 't']
  else if c.toNat < 32 || c.toNat = 127 then
    ['\\', 'x', hexChar (c.toNat / 16), hexChar (c.toNat % 16)]
  else [c]

/-- Python `repr` of a string: single quotes, switching to double quotes when
the text has a single quote but no double quote. -/
def strRepr (s : String) : String :=
  let q := if s.data.contains '\'' && !(s.data.contains '"') then '"' else '\''
  String.mk (q :: (s.data.flatMap (reprEscape q) ++ [q]))

mutual
/-- Python `repr` of a value (containers render their elements with `repr`,
separated by `', '`; an opaque object renders as an angle-bracketed tag). -/
def pyRepr (v : PyVal) : String :=
  match v with
  | .null => "None"
  | .bool true => "True"
  | .bool false => "False"
  | .int i => String.mk (intChars i)
  | .str s => strRepr s
  | .list [] => "[]"
  | .list (x :: xs) => "[" ++ pyRepr x ++ pyReprItems xs ++ "]"
  | .dict [] => "\x7b\x7d"
  | .dict ((k, kv) :: kvs) =>
    "\x7b" ++ strRepr k ++ ": " ++ pyRepr kv ++ pyReprFields kvs ++ "\x7d"
  | .obj ty => "<" ++ ty ++ " object>"
termination_by structural v

/-- Comma-separated `repr` tail of a list. -/
def pyReprItems (l : List PyVal) : String :=
  match l with
  | [] => ""
  | x :: xs => ", " ++ pyRepr x ++ pyReprItems xs
termination_by structural l

/-- Comma-separated `repr` tail of a dictionary. -/
def pyReprFields (l : List (String × PyVal)) : String :=
  match l with
  | [] => ""
  | (k, v) :: kvs => ", " ++ strRepr k ++ ": " ++ pyRepr v ++ pyReprFields kvs
termination_by structural l
end

/-- Python `str()` of a value: the text itself for strings, `repr` shape for
everything else the handler can interpolate into its f-string. -/
def pyStr (v : PyVal) : String :=
  match v with
  | .str s => s
  | v => pyRepr v

/-- A naive (timezone-free) timestamp as `datetime.utcnow()` yields it. -/
structure DateTime where
  year : Nat
  month : Nat
  day : Nat
  hour : Nat
  minute : Nat
  second : Nat
  microsecond : Nat

/-- Field ranges `datetime` guarantees (`datetime.MINYEAR = 1`,
`datetime.MAXYEAR = 9999`). -/
def DateTime.valid (t : DateTime) : Prop :=
  1 ≤ t.year ∧ t.year ≤ 9999 ∧ 1 ≤ t.month ∧ t.month ≤ 12 ∧
  1 ≤ t.day ∧ t.day ≤ 31 ∧ t.hour ≤ 23 ∧ t.minute ≤ 59 ∧ t.second ≤ 59 ∧
  t.microsecond ≤ 999999

instance (t : DateTime) : Decidable t.valid := by
  unfold DateTime.valid; infer_instance

/-- Left-pad the decimal digits of `n` with zeros to width `k`. -/
def zeroPad (k n : Nat) : List Char :=
  List.replicate (k - (natChars n).length) '0' ++ natChars n

/-- `datetime.isoformat()`: `YYYY-MM-DDTHH:MM:SS`, with `.ffffff` appended
exactly when the microsecond field is nonzero. -/
def isoformat (t : DateTime) : String :=
  String.mk (zeroPad 4 t.year ++ '-' :: zeroPad 2 t.month ++ '-' :: zeroPad 2 t.day
    ++ 'T' :: zeroPad 2 t.hour ++ ':' :: zeroPad 2 t.minute ++ ':' :: zeroPad 2 t.second
    ++ (if t.microsecond = 0 then [] else '.' :: zeroPad 6 t.microsecond))

/-- Checks that a string is an ISO-8601 UTC timestamp with a literal `Z`
suffix, as the spec requires of the `timestamp` fields: date, `T`, time, an
optional six-digit fraction, then `Z`. -/
def isIso8601Z (s : String) : Bool :=
  match s.data with
  | y1 :: y2 :: y3 :: y4 :: '-' :: m1 :: m2 :: '-' :: d1 :: d2 :: 'T' ::
      h1 :: h2 :: ':' :: i1 :: i2 :: ':' :: s1 :: s2 :: rest =>
    [y1, y2, y3, y4, m1, m2, d1, d2, h1, h2, i1, i2, s1, s2].all isDigitChar &&
    (match rest with
     | ['Z'] => true
     | '.' :: u1 :: u2 :: u3 :: u4 :: u5 :: u6 :: 'Z' :: [] =>
       [u1, u2, u3, u4, u5, u6].all isDigitChar
     | _ => false)
  | _ => false

/-- The content of `sys.version_info` the handler reads. -/
structure VersionInfo where
  major : Nat
  minor : Nat
  micro : Nat

/-- `get_python_version` (source lines 91-94):
`f"{major}.{minor}.{micro}"` over `sys.version_info`. -/
def get_python_version (v : VersionInfo) : String :=
  String.mk (natChars v.major) ++ "." ++ String.mk (natChars v.minor)
    ++ "." ++ String.mk (natChars v.micro)

/-- The one attribute of the Lambda context object the handler reads;
`Option.none` models an object without an `aws_request_id` attribute. -/
structure LambdaContext where
  aws_request_id : Option String

/-- The ambient environment of one invocation: the clock reading
`datetime.utcnow()` returns, `sys.version_info`, and the log records already
held by the process-wide logging configuration. -/
structure World where
  now : DateTime
  version : VersionInfo
  logHistory : List String

/-- Source line 34:
`getattr(context, 'aws_request_id', 'unknown') if context else 'local'`
(a context object is truthy, `None` is falsy). -/
def requestIdOf (context : Option LambdaContext) : String :=
  match context with
  | Option.none => "local"
  | some c => c.aws_request_id.getD "unknown"

/-- Source line 40: `event.get('message', '闘魂注入!')`. -/
def inputMessageOf (event : List (String × PyVal)) : PyVal :=
  (dictGet event "message").getD (.str "闘魂注入!")

/-- Source line 41: `event.get('test', 'default')`. -/
def testParamOf (event : List (String × PyVal)) : PyVal :=
  (dictGet event "test").getD (.str "default")

/-- Source lines 44-54: the `response_data` dictionary, in insertion order.
The f-string at line 45 interpolates `str(input_message)`. -/
def successPayload (event : List (String × PyVal)) (context : Option LambdaContext)
    (now : DateTime) (version : VersionInfo) : PyVal :=
  .dict [
    ("message", .str ("🔥 闘魂Python Lambda 成功だ！ - " ++ pyStr (inputMessageOf event))),
    ("timestamp", .str (isoformat now ++ "Z")),
    ("request_id", .str (requestIdOf context)),
    ("python_version", .str (get_python_version version)),
    ("input_event", .dict event),
    ("processed_by", .str "Python闘魂エンジン"),
    ("status", .str "VICTORY!"),
    ("toukon_power", .str "MAX"),
    ("test_param", testParamOf event)]

/-- Source lines 80-85: the error body dictionary built in the catch block,
where `e` is the caught exception's string representation. -/
def errorPayload (e : String) (now : DateTime) : PyVal :=
  .dict [
    ("error", .str "闘魂処理でエラーが発生しました"),
    ("message", .str e),
    ("timestamp", .str (isoformat now ++ "Z")),
    ("status", .str "ERROR")]

/-- Source lines 29-68, the `try` suite: log the banner, log the event (the
f-string serializes it compactly and this is the first raise site), build
`response_data`, serialize it with `indent=2` (the second raise site), and
assemble the 200 envelope.  Returns the envelope and the emitted log lines,
or the exception text and the log lines emitted before the raise. -/
def tryBlock (event : List (String × PyVal)) (context : Option LambdaContext)
    (now : DateTime) (version : VersionInfo) :
    Except (String × List String) (PyVal × List String) :=
  let logs0 := ["🔥 闘魂Python Lambda 開始!"]
  match dumps Option.none (.dict event) with
  | .error e => .error (e, logs0)
  | .ok eventText =>
    let logs1 := logs0 ++ ["受信イベント: " ++ eventText]
    match dumps (some 2) (successPayload event context now version) with
    | .error e => .error (e, logs1)
    | .ok body =>
      .ok (.dict [
        ("statusCode", .int 200),
        ("headers", .dict [
          ("Content-Type", .str "application/json; charset=utf-8"),
          ("X-Toukon-Power", .str "MAX"),
          ("X-Python-Engine", .str "True")]),
        ("body", .str body)],
        logs1 ++ ["🔥 闘魂Python Lambda 完了!"])

/-- Source lines 18-88, `lambda_handler`: run the `try` suite; on an
exception, log it and build the 500 envelope around the serialized
`errorPayload`.  The result pairs the returned envelope with the updated log
history; a top-level `.error` would be an exception escaping to the host
runtime (possible in the source only if the catch block itself failed, which
the model's catch block cannot). -/
def lambda_handler (event : List (String × PyVal)) (context : Option LambdaContext)
    (w : World) : Except String (PyVal × List String) :=
  match tryBlock event context w.now w.version with
  | .ok (resp, logs) => .ok (resp, w.logHistory ++ logs)
  | .error (e, logs) =>
    let errLog := "💥 闘魂エラー発生: " ++ e
    match dumps (some 2) (errorPayload e w.now) with
    | .error e2 => .error e2
    | .ok body =>
      .ok (.dict [
        ("statusCode", .int 500),
        ("headers", .dict [
          ("Content-Type", .str "application/json; charset=utf-8"),
          ("X-Toukon-Error", .str "True")]),
        ("body", .str body)],
        w.logHistory ++ logs ++ [errLog])

/-- The `statusCode` field of an envelope. -/
def envStatus (r : PyVal) : Option PyVal := pvGet r "statusCode"

/-- The `headers` field of an envelope. -/
def envHeaders (r : PyVal) : Option PyVal := pvGet r "headers"

/-- The `body` string of an envelope. -/
def envBody (r : PyVal) : Option String :=
  match pvGet r "body" with
  | some (.str s) => some s
  | _ => Option.none

/-- An envelope is well formed when it is a mapping with an integer
`statusCode`, a string-valued `headers` mapping, and a string `body`. -/
def wellFormedEnvelope (r : PyVal) : Bool :=
  (match envStatus r with
   | some (.int _) => true
   | _ => false) &&
  (match envHeaders r with
   | some (.dict hs) => hs.all fun kv =>
     match kv.2 with
     | .str _ => true
     | _ => false
   | _ => false) &&
  (envBody r).isSome

/-- The parsed JSON body of the envelope the handler returned, when the
handler returned one. -/
def handlerBodyJson (event : List (String × PyVal)) (context : Option LambdaContext)
    (w : World) : Option PyVal :=
  match lambda_handler event context w with
  | .ok (resp, _) => (envBody resp).bind parseJson
  | .error _ => Option.none

/-- Substring containment, stated over the character lists. -/
def strContains (hay needle : String) : Prop :=
  ∃ pre post, hay.data = pre ++ needle.data ++ post

/-- The key list of a `PyVal` dictionary, in insertion order. -/
def pvKeys (v : PyVal) : Option (List String) :=
  match v with
  | .dict kvs => some (kvs.map Prod.fst)
  | _ => Option.none

theorem digitSpec : ∀ k < 10,
    (Char.ofNat (48 + k)).toNat - 48 = k ∧ isDigitChar (Char.ofNat (48 + k)) = true := by
  decide

/-- The fuel argument of `natCharsAux` is irrelevant once it is at least `n`. -/
theorem natCharsAux_congr : ∀ n f1 f2, n ≤ f1 → n ≤ f2 →
    natCharsAux f1 n = natCharsAux f2 n := by
  intro n
  induction n using Nat.strong_induction_on with
  | _ n ih =>
    intro f1 f2 h1 h2
    match f1, f2 with
    | 0, 0 => rfl
    | 0, g + 1 =>
      have : n = 0 := by omega
      subst this
      simp [natCharsAux]
    | g + 1, 0 =>
      have : n = 0 := by omega
      subst this
      simp [natCharsAux]
    | g1 + 1, g2 + 1 =>
      by_cases h : n < 10
      · simp [natCharsAux, h]
      · have hd : n / 10 < n := Nat.div_lt_self (by omega) (by omega)
        simp only [natCharsAux, if_neg h]
        rw [ih (n / 10) hd g1 g2 (by omega) (by omega)]

/-- Unfolding equation for `natChars` in its mathematical form. -/
theorem natChars_eq (n : Nat) : natChars n =
    if n < 10 then [Char.ofNat (48 + n)]
    else natChars (n / 10) ++ [Char.ofNat (48 + n % 10)] := by
  by_cases h : n < 10
  · match n, h with
    | 0, _ => simp [natChars, natCharsAux]
    | k + 1, h => simp [natChars, natCharsAux, h]
  · have hd : n / 10 < n := Nat.div_lt_self (by omega) (by omega)
    have hn : 1 ≤ n := by omega
    simp only [if_neg h]
    show natCharsAux n n = _
    rw [show n = (n - 1) + 1 from by omega]
    simp only [natCharsAux, if_neg (show ¬ (n - 1) + 1 < 10 from by omega)]
    rw [show (n - 1) + 1 = n from by omega,
      natCharsAux_congr (n / 10) (n - 1) (n / 10) (by omega) (le_refl _)]
    rfl

theorem natChars_ne_nil (n : Nat) : natChars n ≠ [] := by
  rw [natChars_eq]
  by_cases h : n < 10 <;> simp [h]

theorem natChars_digits (n : Nat) : ∀ c ∈ natChars n, isDigitChar c = true := by
  induction n using Nat.strong_induction_on with
  | _ n ih =>
    rw [natChars_eq]
    by_cases h : n < 10
    · simp only [if_pos h, List.mem_singleton]
      intro c hc
      subst hc
      exact (digitSpec n h).2
    · simp only [if_neg h]
      intro c hc
      rcases List.mem_append.mp hc with hc | hc
      · exact ih (n / 10) (Nat.div_lt_self (by omega) (by omega)) c hc
      · rw [List.mem_singleton] at hc
        subst hc
        exact (digitSpec (n % 10) (Nat.mod_lt _ (by omega))).2

/-- Reading the digit characters of `n` back as a number recovers `n`. -/
theorem digitsNat_natChars (n : Nat) : digitsNat (natChars n) = n := by
  induction n using Nat.strong_induction_on with
  | _ n ih =>
    rw [natChars_eq]
    by_cases h : n < 10
    · simp only [if_pos h, digitsNat, List.foldl_cons, List.foldl_nil]
      rw [(digitSpec n h).1]
      omega
    · simp only [if_neg h, digitsNat, List.foldl_append, List.foldl_cons, List.foldl_nil]
      have := ih (n / 10) (Nat.div_lt_self (by omega) (by omega))
      rw [digitsNat] at this
      rw [this, (digitSpec (n % 10) (Nat.mod_lt _ (by omega))).1]
      omega

/-- Input that cannot extend a decimal numeral: empty or headed by a
non-digit.  Every delimiter the serializer emits after a number (comma,
newline, space, closing bracket, end of input) qualifies. -/
def nonDigitStart : List Char → Bool
  | [] => true
  | c :: _ => !isDigitChar c

theorem grabDigits_stop : ∀ {cs : List Char}, nonDigitStart cs = true →
    grabDigits cs = ([], cs)
  | [], _ => rfl
  | c :: t, h => by
    have hc : isDigitChar c = false := by simpa [nonDigitStart] using h
    simp [grabDigits, hc]

/-- `grabDigits` consumes exactly a digit run. -/
theorem grabDigits_run (ds : List Char) (hds : ∀ c ∈ ds, isDigitChar c = true)
    (rest : List Char) (hrest : nonDigitStart rest = true) :
    grabDigits (ds ++ rest) = (ds, rest) := by
  induction ds with
  | nil => simpa using grabDigits_stop hrest
  | cons c t ih =>
    have hc : isDigitChar c = true := hds c (by simp)
    have ht := ih fun x hx => hds x (by simp [hx])
    simp [grabDigits, hc, ht]

theorem natChars_cons (n : Nat) :
    ∃ c t, natChars n = c :: t ∧ isDigitChar c = true := by
  match h : natChars n with
  | [] => exact absurd h (natChars_ne_nil n)
  | c :: t => exact ⟨c, t, rfl, natChars_digits n c (h ▸ List.mem_cons_self ..)⟩

theorem hexNat_hexChar : ∀ d < 16, hexNat (hexChar d) = some d := by decide

/-- Scanning one escaped character undoes `escapeChar`. -/
theorem scanStr_escape (c : Char) (acc rest : List Char) :
    scanStr acc (escapeChar c ++ rest) = scanStr (c :: acc) rest := by
  by_cases h1 : c = '"'
  · subst h1; rfl
  by_cases h2 : c = '\\'
  · subst h2; rfl
  by_cases h3 : c = '\n'
  · subst h3; simp [escapeChar, scanStr, shortEscape]
  by_cases h4 : c = '\t'
  · subst h4; simp [escapeChar, scanStr, shortEscape]
  by_cases h5 : c = '\r'
  · subst h5; simp [escapeChar, scanStr, shortEscape]
  by_cases h6 : c.toNat = 8
  · have hc : c = Char.ofNat 8 := by
      rw [← h6, Char.ofNat_toNat]
    simp only [escapeChar, if_neg h1, if_neg h2, if_neg h3, if_neg h4, if_neg h5, if_pos h6]
    rw [hc]
    rfl
  by_cases h7 : c.toNat = 12
  · have hc : c = Char.ofNat 12 := by
      rw [← h7, Char.ofNat_toNat]
    simp only [escapeChar, if_neg h1, if_neg h2, if_neg h3, if_neg h4, if_neg h5,
      if_neg h6, if_pos h7]
    rw [hc]
    rfl
  by_cases h8 : c.toNat < 32
  · simp only [escapeChar, if_neg h1, if_neg h2, if_neg h3, if_neg h4, if_neg h5,
      if_neg h6, if_neg h7, if_pos h8, List.cons_append]
    have e1 : hexNat (hexChar (c.toNat / 16)) = some (c.toNat / 16) :=
      hexNat_hexChar _ (by omega)
    have e2 : hexNat (hexChar (c.toNat % 16)) = some (c.toNat % 16) :=
      hexNat_hexChar _ (Nat.mod_lt _ (by omega))
    have harith : ((0 * 16 + 0) * 16 + c.toNat / 16) * 16 + c.toNat % 16 = c.toNat := by
      omega
    have h0 : hexNat '0' = some 0 := by decide
    simp only [scanStr, h0, e1, e2, harith, Char.ofNat_toNat]
    simp
  · simp only [escapeChar, if_neg h1, if_neg h2, if_neg h3, if_neg h4, if_neg h5,
      if_neg h6, if_neg h7, if_neg h8, List.singleton_append]
    rw [scanStr.eq_def]
    simp [h1, h2]

/-- Scanning an escaped character run stops at the closing quote with the
original text. -/
theorem scanStr_flatMap (cs : List Char) : ∀ (acc rest : List Char),
    scanStr acc (cs.flatMap escapeChar ++ '"' :: rest) = some (acc.reverse ++ cs, rest) := by
  induction cs with
  | nil =>
    intro acc rest
    simp [scanStr]
  | cons c cs ih =>
    intro acc rest
    rw [List.flatMap_cons, List.append_assoc, scanStr_escape, ih]
    simp

theorem mk_data (s : String) : String.mk s.data = s := by
  cases s
  rfl

theorem dropWs_ws_append (ws : List Char) (h : ∀ c ∈ ws, isWsChar c = true)
    (x : List Char) : dropWs (ws ++ x) = dropWs x := by
  induction ws with
  | nil => rfl
  | cons c t ih =>
    have hc := h c (by simp)
    simp only [List.cons_append, dropWs, hc, if_pos]
    exact ih fun d hd => h d (by simp [hd])

theorem openGap_ws (w : Option Nat) (lvl : Nat) :
    ∀ c ∈ openGap w lvl, isWsChar c = true := by
  intro c hc
  match w with
  | Option.none => simp [openGap] at hc
  | some k =>
    simp only [openGap, List.mem_cons] at hc
    rcases hc with rfl | hc
    · rfl
    · rw [List.eq_of_mem_replicate hc]
      rfl

theorem sepGap_ws (w : Option Nat) (lvl : Nat) :
    ∀ c ∈ sepGap w lvl, isWsChar c = true := by
  intro c hc
  match w with
  | Option.none =>
    simp only [sepGap, List.mem_singleton] at hc
    rw [hc]
    rfl
  | some k =>
    simp only [sepGap, List.mem_cons] at hc
    rcases hc with rfl | hc
    · rfl
    · rw [List.eq_of_mem_replicate hc]
      rfl

theorem closeGap_ws (w : Option Nat) (lvl : Nat) :
    ∀ c ∈ closeGap w lvl, isWsChar c = true := by
  intro c hc
  match w with
  | Option.none => simp [closeGap] at hc
  | some k =>
    simp only [closeGap, List.mem_cons] at hc
    rcases hc with rfl | hc
    · rfl
    · rw [List.eq_of_mem_replicate hc]
      rfl

theorem dropWs_cons {c : Char} (h : isWsChar c = false) (t : List Char) :
    dropWs (c :: t) = c :: t := by
  simp [dropWs, h]


theorem digit_toNat {c : Char} (h : isDigitChar c = true) :
    48 ≤ c.toNat ∧ c.toNat ≤ 57 := by
  simpa [isDigitChar, Bool.and_eq_true, decide_eq_true_eq] using h

theorem digit_not_special {c : Char} (h : isDigitChar c = true) :
    isWsChar c = false ∧ c ≠ ']' ∧ c ≠ '}' ∧ c ≠ ',' ∧ c ≠ ':' := by
  obtain ⟨hl, hr⟩ := digit_toNat h
  have key : ∀ d : Char, (48 ≤ d.toNat → d.toNat ≤ 57 → False) → c ≠ d := by
    intro d hd heq
    exact hd (heq ▸ hl) (heq ▸ hr)
  refine ⟨?_, key ']' (by decide), key '}' (by decide), key ',' (by decide), key ':' (by decide)⟩
  cases hws : isWsChar c with
  | false => rfl
  | true =>
    simp only [isWsChar, Bool.or_eq_true, decide_eq_true_eq] at hws
    rcases hws with ((h32 | h9) | h10) | h13 <;> omega

theorem digit_not_letters {c : Char} (h : isDigitChar c = true) :
    c ≠ '-' ∧ c ≠ '"' ∧ c ≠ '[' ∧ c ≠ '{' ∧ c ≠ 'n' ∧ c ≠ 't' ∧ c ≠ 'f' := by
  obtain ⟨hl, hr⟩ := digit_toNat h
  have key : ∀ d : Char, (48 ≤ d.toNat → d.toNat ≤ 57 → False) → c ≠ d := by
    intro d hd heq
    exact hd (heq ▸ hl) (heq ▸ hr)
  exact ⟨key '-' (by decide), key '"' (by decide), key '[' (by decide), key '{' (by decide),
    key 'n' (by decide), key 't' (by decide), key 'f' (by decide)⟩

/-- Serialized output of a serializable value starts with a significant
character: not whitespace and none of the closers the parsers dispatch on. -/
theorem serVal_head (w : Option Nat) (lvl : Nat) (v : PyVal)
    (h : findBad v = Option.none) :
    ∃ c t, serVal w lvl v = c :: t ∧ isWsChar c = false ∧ c ≠ ']' ∧ c ≠ '}' ∧ c ≠ ',' := by
  match v with
  | .null => exact ⟨'n', _, rfl, by decide, by decide, by decide, by decide⟩
  | .bool true => exact ⟨'t', _, rfl, by decide, by decide, by decide, by decide⟩
  | .bool false => exact ⟨'f', _, rfl, by decide, by decide, by decide, by decide⟩
  | .str s => exact ⟨'"', _, rfl, by decide, by decide, by decide, by decide⟩
  | .list [] => exact ⟨'[', _, rfl, by decide, by decide, by decide, by decide⟩
  | .list (x :: xs) => exact ⟨'[', _, rfl, by decide, by decide, by decide, by decide⟩
  | .dict [] => exact ⟨'{', _, rfl, by decide, by decide, by decide, by decide⟩
  | .dict ((k, kv) :: kvs) => exact ⟨'{', _, rfl, by decide, by decide, by decide, by decide⟩
  | .int i =>
    by_cases hneg : i < 0
    · refine ⟨'-', natChars i.natAbs, ?_, by decide, by decide, by decide, by decide⟩
      simp [serVal, intChars, hneg]
    · obtain ⟨c, t, hct, hc⟩ := natChars_cons i.natAbs
      obtain ⟨hws, h1, h2, h3, _⟩ := digit_not_special hc
      refine ⟨c, t, ?_, hws, h1, h2, h3⟩
      simp [serVal, intChars, hneg, hct]
  | .obj ty => simp [findBad] at h

theorem serVal_len (w : Option Nat) (lvl : Nat) (v : PyVal)
    (h : findBad v = Option.none) : 1 ≤ (serVal w lvl v).length := by
  obtain ⟨c, t, hct, _⟩ := serVal_head w lvl v h
  simp [hct]

/-- One-step unfolding of `jparse` at successor fuel. -/
theorem jparse_step (fuel : Nat) (cs : List Char) :
    jparse (fuel + 1) cs =
    (match dropWs cs with
     | 'n' :: more =>
       (match more with
        | 'u' :: 'l' :: 'l' :: r => some (.null, r)
        | _ => none)
     | 't' :: more =>
       (match more with
        | 'r' :: 'u' :: 'e' :: r => some (.bool true, r)
        | _ => none)
     | 'f' :: more =>
       (match more with
        | 'a' :: 'l' :: 's' :: 'e' :: r => some (.bool false, r)
        | _ => none)
     | '"' :: r =>
       match scanStr [] r with
       | some (content, r') => some (.str (String.mk content), r')
       | Option.none => none
     | '[' :: r =>
       (match dropWs r with
        | [] => none
        | c :: r' =>
          if c = ']' then some (.list [], r')
          else
            match jparseItems fuel (c :: r') with
            | some (vs, r2) => some (.list vs, r2)
            | Option.none => none)
     | '{' :: r =>
       (match dropWs r with
        | [] => none
        | c :: r' =>
          if c = '}' then some (.dict [], r')
          else
            match jparseFields fuel (c :: r') with
            | some (kvs, r2) => some (.dict kvs, r2)
            | Option.none => none)
     | '-' :: r =>
       (match grabDigits r with
        | ([], _) => none
        | (ds, r') => some (.int (-(digitsNat ds : Int)), r'))
     | c :: r =>
       if isDigitChar c then
         match grabDigits (c :: r) with
         | (ds, r') => some (.int (digitsNat ds : Int), r')
       else none
     | [] => none) := rfl

/-- One-step unfolding of `jparseItems` at successor fuel. -/
theorem jparseItems_step (fuel : Nat) (cs : List Char) :
    jparseItems (fuel + 1) cs =
    (match jparse fuel cs with
     | some (v, r) =>
       (match dropWs r with
        | ',' :: r' =>
          (match jparseItems fuel r' with
           | some (vs, r2) => some (v :: vs, r2)
           | Option.none => none)
        | ']' :: r' => some ([v], r')
        | _ => none)
     | Option.none => none) := rfl

/-- One-step unfolding of `jparseFields` at successor fuel. -/
theorem jparseFields_step (fuel : Nat) (cs : List Char) :
    jparseFields (fuel + 1) cs =
    (match dropWs cs with
     | '"' :: r =>
       (match scanStr [] r with
        | some (kcs, r1) =>
          (match dropWs r1 with
           | ':' :: r2 =>
             (match jparse fuel r2 with
              | some (v, r3) =>
                (match dropWs r3 with
                 | ',' :: r4 =>
                   (match jparseFields fuel r4 with
                    | some (kvs, r5) => some ((String.mk kcs, v) :: kvs, r5)
                    | Option.none => none)
                 | '}' :: r4 => some ([(String.mk kcs, v)], r4)
                 | _ => none)
              | Option.none => none)
           | _ => none)
        | Option.none => none)
     | _ => none) := rfl

/-- Leading whitespace is invisible to the value parser. -/
theorem jparse_ws (fuel : Nat) (g : List Char) (hg : ∀ c ∈ g, isWsChar c = true)
    (cs : List Char) : jparse fuel (g ++ cs) = jparse fuel cs := by
  match fuel with
  | 0 => rfl
  | fuel + 1 => rw [jparse_step, jparse_step, dropWs_ws_append g hg cs]

/-- Leading whitespace is invisible to the element-list parser. -/
theorem jparseItems_ws (fuel : Nat) (g : List Char) (hg : ∀ c ∈ g, isWsChar c = true)
    (cs : List Char) : jparseItems fuel (g ++ cs) = jparseItems fuel cs := by
  match fuel with
  | 0 => rfl
  | fuel + 1 => rw [jparseItems_step, jparseItems_step, jparse_ws fuel g hg cs]

/-- Leading whitespace is invisible to the member-list parser. -/
theorem jparseFields_ws (fuel : Nat) (g : List Char) (hg : ∀ c ∈ g, isWsChar c = true)
    (cs : List Char) : jparseFields fuel (g ++ cs) = jparseFields fuel cs := by
  match fuel with
  | 0 => rfl
  | fuel + 1 => rw [jparseFields_step, jparseFields_step, dropWs_ws_append g hg cs]

theorem findBadItems_cons {x : PyVal} {xs : List PyVal} :
    findBadItems (x :: xs) = Option.none ↔
      (findBad x = Option.none ∧ findBadItems xs = Option.none) := by
  cases hfb : findBad x <;> simp [findBadItems, hfb]

theorem findBadFields_cons {k : String} {v : PyVal} {kvs : List (String × PyVal)} :
    findBadFields ((k, v) :: kvs) = Option.none ↔
      (findBad v = Option.none ∧ findBadFields kvs = Option.none) := by
  cases hfb : findBad v <;> simp [findBadFields, hfb]


/-- The parser reads back a serialized integer, provided what follows cannot
extend the numeral. -/
theorem jparse_int (i : Int) (fuel : Nat) (rest : List Char)
    (hr : nonDigitStart rest = true) :
    jparse (fuel + 1) (intChars i ++ rest) = some (.int i, rest) := by
  have hgrab : grabDigits (natChars i.natAbs ++ rest) = (natChars i.natAbs, rest) :=
    grabDigits_run _ (natChars_digits _) rest hr
  obtain ⟨c, t, hct, hc⟩ := natChars_cons i.natAbs
  by_cases hneg : i < 0
  · have harg : intChars i ++ rest = '-' :: (natChars i.natAbs ++ rest) := by
      simp [intChars, hneg]
    rw [harg, jparse_step, dropWs_cons (by decide)]
    simp only [hgrab]
    rw [hct]
    simp only [← hct, digitsNat_natChars]
    simp only [Option.some.injEq, Prod.mk.injEq, PyVal.int.injEq]
    refine ⟨?_, trivial⟩
    omega
  · have harg : intChars i ++ rest = c :: (t ++ rest) := by
      simp [intChars, hneg, hct]
    obtain ⟨hws, _, _, _, _⟩ := digit_not_special hc
    obtain ⟨hminus, hq, hbk, hbc, hn, ht, hf⟩ := digit_not_letters hc
    rw [harg, jparse_step, dropWs_cons hws]
    simp [hn, ht, hf, hq, hbk, hbc, hminus, hc]
    have hrw : c :: (t ++ rest) = natChars i.natAbs ++ rest := by
      rw [hct]
      rfl
    rw [hrw, hgrab, digitsNat_natChars]
    refine ⟨?_, rfl⟩
    omega

theorem nonDigit_gap_cons (w : Option Nat) (lvl : Nat) (c : Char)
    (hc : isDigitChar c = false) (rest : List Char) :
    nonDigitStart (closeGap w lvl ++ c :: rest) = true := by
  match w with
  | Option.none => simp [closeGap, nonDigitStart, hc]
  | some k =>
    show nonDigitStart ('\n' :: _) = true
    rfl

theorem dropWs_gap_cons (w : Option Nat) (lvl : Nat) (c : Char)
    (hc : isWsChar c = false) (rest : List Char) :
    dropWs (closeGap w lvl ++ c :: rest) = c :: rest := by
  rw [dropWs_ws_append _ (closeGap_ws w lvl), dropWs_cons hc]

/-- The value parser on a nonempty serialized list dispatches to the
element-list parser. -/
theorem jparse_onListCons (fuel : Nat) (w : Option Nat) (lvl : Nat) (x : PyVal)
    (hx : findBad x = Option.none) (R : List Char) :
    jparse (fuel + 1) ('[' :: (openGap w lvl ++ (serVal w (lvl + 1) x ++ R)))
      = (match jparseItems fuel (serVal w (lvl + 1) x ++ R) with
         | some (vs, r2) => some (.list vs, r2)
         | Option.none => none) := by
  obtain ⟨c, t, hct, hcws, hcbk, _, _⟩ := serVal_head w (lvl + 1) x hx
  have hform : serVal w (lvl + 1) x ++ R = c :: (t ++ R) := by
    simp [hct]
  have hdrop : dropWs (openGap w lvl ++ (serVal w (lvl + 1) x ++ R)) = c :: (t ++ R) := by
    rw [dropWs_ws_append _ (openGap_ws w lvl), hform, dropWs_cons hcws]
  rw [jparse_step, dropWs_cons (by decide)]
  simp only [hdrop]
  rw [if_neg hcbk, ← hform]

/-- The value parser on a nonempty serialized dictionary dispatches to the
member-list parser. -/
theorem jparse_onDictCons (fuel : Nat) (w : Option Nat) (lvl : Nat) (k : String)
    (R : List Char) :
    jparse (fuel + 1) ('{' :: (openGap w lvl ++ (strChars k ++ R)))
      = (match jparseFields fuel (strChars k ++ R) with
         | some (kvs, r2) => some (.dict kvs, r2)
         | Option.none => none) := by
  have hform : strChars k ++ R = '"' :: (k.data.flatMap escapeChar ++ '"' :: R) := by
    simp [strChars]
  have hdrop : dropWs (openGap w lvl ++ (strChars k ++ R))
      = '"' :: (k.data.flatMap escapeChar ++ '"' :: R) := by
    rw [dropWs_ws_append _ (openGap_ws w lvl), hform, dropWs_cons (by decide)]
  rw [jparse_step, dropWs_cons (by decide)]
  simp only [hdrop]
  rw [if_neg (by decide), ← hform]

mutual
/-- Round trip, value level: the parser inverts the serializer on any
serializable value, for any indentation mode and nesting level, given enough
fuel and a remainder that cannot extend a numeral. -/
theorem rt_val : ∀ (v : PyVal) (w : Option Nat) (lvl fuel : Nat) (rest : List Char),
    findBad v = Option.none → (serVal w lvl v).length < fuel →
    nonDigitStart rest = true →
    jparse fuel (serVal w lvl v ++ rest) = some (v, rest)
  | .null, w, lvl, fuel, rest, h, hfl, hr => by
    cases fuel with
    | zero => omega
    | succ f =>
      rfl
  | .bool true, w, lvl, fuel, rest, h, hfl, hr => by
    cases fuel with
    | zero => omega
    | succ f =>
      rfl
  | .bool false, w, lvl, fuel, rest, h, hfl, hr => by
    cases fuel with
    | zero => omega
    | succ f =>
      rfl
  | .int i, w, lvl, fuel, rest, h, hfl, hr => by
    cases fuel with
    | zero => omega
    | succ f => exact jparse_int i f rest hr
  | .str s, w, lvl, fuel, rest, h, hfl, hr => by
    cases fuel with
    | zero => omega
    | succ f =>
      rw [show serVal w lvl (.str s) ++ rest
          = '"' :: (s.data.flatMap escapeChar ++ '"' :: rest) from by simp [serVal, strChars],
        jparse_step, dropWs_cons (by decide)]
      simp only [scanStr_flatMap, List.reverse_nil, List.nil_append]
  | .list [], w, lvl, fuel, rest, h, hfl, hr => by
    cases fuel with
    | zero => omega
    | succ f =>
      rfl
  | .list (x :: xs), w, lvl, fuel, rest, h, hfl, hr => by
    cases fuel with
    | zero => omega
    | succ f =>
      have hx : findBad x = Option.none ∧ findBadItems xs = Option.none :=
        findBadItems_cons.mp (by simpa [findBad] using h)
      have hlen : (serVal w (lvl + 1) x ++ serItems w lvl xs).length + 1 < f := by
        simp only [serVal, List.length_cons, List.length_append] at hfl ⊢
        omega
      have hitems := rt_items x xs w lvl f rest hx.1 hx.2 hlen
      rw [show serVal w lvl (.list (x :: xs)) ++ rest
          = '[' :: (openGap w lvl ++ (serVal w (lvl + 1) x ++ (serItems w lvl xs
            ++ closeGap w lvl ++ ']' :: rest))) from by simp [serVal],
        jparse_onListCons f w lvl x hx.1]
      rw [show serVal w (lvl + 1) x ++ (serItems w lvl xs ++ closeGap w lvl ++ ']' :: rest)
          = serVal w (lvl + 1) x ++ serItems w lvl xs ++ closeGap w lvl ++ ']' :: rest from by
        simp]
      rw [hitems]
  | .dict [], w, lvl, fuel, rest, h, hfl, hr => by
    cases fuel with
    | zero => omega
    | succ f =>
      rfl
  | .dict ((k, kv) :: kvs), w, lvl, fuel, rest, h, hfl, hr => by
    cases fuel with
    | zero => omega
    | succ f =>
      have hv : findBad kv = Option.none ∧ findBadFields kvs = Option.none :=
        findBadFields_cons.mp (by simpa [findBad] using h)
      have hlen : (strChars k ++ ':' :: ' ' :: serVal w (lvl + 1) kv
          ++ serFields w lvl kvs).length + 1 < f := by
        simp only [serVal, strChars, List.length_cons, List.length_append] at hfl ⊢
        omega
      have hfields := rt_fields k kv kvs w lvl f rest hv.1 hv.2 hlen
      rw [show serVal w lvl (.dict ((k, kv) :: kvs)) ++ rest
          = '{' :: (openGap w lvl ++ (strChars k ++ (':' :: ' ' :: serVal w (lvl + 1) kv
            ++ serFields w lvl kvs ++ closeGap w lvl ++ '}' :: rest))) from by simp [serVal],
        jparse_onDictCons f w lvl k]
      rw [show strChars k ++ (':' :: ' ' :: serVal w (lvl + 1) kv
            ++ serFields w lvl kvs ++ closeGap w lvl ++ '}' :: rest)
          = strChars k ++ ':' :: ' ' :: serVal w (lvl + 1) kv
            ++ serFields w lvl kvs ++ closeGap w lvl ++ '}' :: rest from by simp]
      rw [hfields]
  | .obj ty, w, lvl, fuel, rest, h, hfl, hr => by
    simp [findBad] at h
termination_by v _ _ _ _ _ _ _ => sizeOf v

/-- Round trip, element-list level: the element parser reads back a nonempty
serialized element list up to and including the closing bracket. -/
theorem rt_items : ∀ (x : PyVal) (xs : List PyVal) (w : Option Nat) (lvl fuel : Nat)
    (rest : List Char),
    findBad x = Option.none → findBadItems xs = Option.none →
    (serVal w (lvl + 1) x ++ serItems w lvl xs).length + 1 < fuel →
    jparseItems fuel (serVal w (lvl + 1) x ++ serItems w lvl xs
      ++ closeGap w lvl ++ ']' :: rest) = some (x :: xs, rest)
  | x, [], w, lvl, fuel, rest, hx, hxs, hfl => by
    cases fuel with
    | zero => omega
    | succ f =>
      have hval := rt_val x w (lvl + 1) f (closeGap w lvl ++ ']' :: rest) hx
        (by simp only [serItems, List.length_append, List.length_nil] at hfl; omega)
        (nonDigit_gap_cons w lvl ']' (by decide) rest)
      rw [show serVal w (lvl + 1) x ++ serItems w lvl [] ++ closeGap w lvl ++ ']' :: rest
          = serVal w (lvl + 1) x ++ (closeGap w lvl ++ ']' :: rest) from by simp [serItems],
        jparseItems_step, hval]
      simp only [dropWs_gap_cons w lvl ']' (by decide) rest]
  | x, y :: ys, w, lvl, fuel, rest, hx, hxs, hfl => by
    cases fuel with
    | zero => omega
    | succ f =>
      have hy : findBad y = Option.none ∧ findBadItems ys = Option.none :=
        findBadItems_cons.mp hxs
      have hsx := serVal_len w (lvl + 1) x hx
      have hval := rt_val x w (lvl + 1) f
        (serItems w lvl (y :: ys) ++ closeGap w lvl ++ ']' :: rest) hx
        (by simp only [List.length_append] at hfl; omega)
        (by rw [show serItems w lvl (y :: ys) ++ closeGap w lvl ++ ']' :: rest
              = ',' :: (sepGap w lvl ++ serVal w (lvl + 1) y ++ serItems w lvl ys
                ++ closeGap w lvl ++ ']' :: rest) from by simp [serItems]]
            rfl)
      have hlen2 : (serVal w (lvl + 1) y ++ serItems w lvl ys).length + 1 < f := by
        simp only [serItems, List.length_append, List.length_cons] at hfl ⊢
        omega
      have htail := rt_items y ys w lvl f rest hy.1 hy.2 hlen2
      rw [show serVal w (lvl + 1) x ++ serItems w lvl (y :: ys) ++ closeGap w lvl ++ ']' :: rest
          = serVal w (lvl + 1) x ++ (serItems w lvl (y :: ys) ++ closeGap w lvl ++ ']' :: rest)
          from by simp,
        jparseItems_step, hval]
      rw [show serItems w lvl (y :: ys) ++ closeGap w lvl ++ ']' :: rest
          = ',' :: (sepGap w lvl ++ (serVal w (lvl + 1) y ++ serItems w lvl ys
            ++ closeGap w lvl ++ ']' :: rest)) from by simp [serItems]]
      simp only [show dropWs (',' :: (sepGap w lvl ++ (serVal w (lvl + 1) y ++ serItems w lvl ys
            ++ closeGap w lvl ++ ']' :: rest)))
          = ',' :: (sepGap w lvl ++ (serVal w (lvl + 1) y ++ serItems w lvl ys
            ++ closeGap w lvl ++ ']' :: rest)) from dropWs_cons (by decide) _,
        jparseItems_ws f (sepGap w lvl) (sepGap_ws w lvl), htail]
termination_by x xs _ _ _ _ _ _ _ => sizeOf x + sizeOf xs

/-- Round trip, member-list level: the member parser reads back a nonempty
serialized member list up to and including the closing brace. -/
theorem rt_fields : ∀ (k : String) (v : PyVal) (kvs : List (String × PyVal))
    (w : Option Nat) (lvl fuel : Nat) (rest : List Char),
    findBad v = Option.none → findBadFields kvs = Option.none →
    (strChars k ++ ':' :: ' ' :: serVal w (lvl + 1) v ++ serFields w lvl kvs).length + 1
      < fuel →
    jparseFields fuel (strChars k ++ ':' :: ' ' :: serVal w (lvl + 1) v
      ++ serFields w lvl kvs ++ closeGap w lvl ++ '}' :: rest) = some ((k, v) :: kvs, rest)
  | k, v, [], w, lvl, fuel, rest, hv, hkvs, hfl => by
    cases fuel with
    | zero => omega
    | succ f =>
      have hval := rt_val v w (lvl + 1) f (closeGap w lvl ++ '}' :: rest) hv
        (by simp only [strChars, serFields, List.length_append, List.length_cons,
              List.length_nil] at hfl
            omega)
        (nonDigit_gap_cons w lvl '}' (by decide) rest)
      rw [show strChars k ++ ':' :: ' ' :: serVal w (lvl + 1) v ++ serFields w lvl []
            ++ closeGap w lvl ++ '}' :: rest
          = '"' :: (k.data.flatMap escapeChar ++ '"' :: (':' :: ([' ']
            ++ (serVal w (lvl + 1) v ++ (closeGap w lvl ++ '}' :: rest))))) from by
        simp [strChars, serFields],
        jparseFields_step, dropWs_cons (by decide)]
      simp only [scanStr_flatMap, List.reverse_nil, List.nil_append]
      simp only [show dropWs (':' :: ([' '] ++ (serVal w (lvl + 1) v
            ++ (closeGap w lvl ++ '}' :: rest))))
          = ':' :: ([' '] ++ (serVal w (lvl + 1) v ++ (closeGap w lvl ++ '}' :: rest)))
          from dropWs_cons (by decide) _,
        jparse_ws f [' '] (by decide), hval,
        dropWs_gap_cons w lvl '}' (by decide) rest, mk_data]
  | k, v, (k2, v2) :: kvs2, w, lvl, fuel, rest, hv, hkvs, hfl => by
    cases fuel with
    | zero => omega
    | succ f =>
      have hv2 : findBad v2 = Option.none ∧ findBadFields kvs2 = Option.none :=
        findBadFields_cons.mp hkvs
      have hsv := serVal_len w (lvl + 1) v hv
      have hval := rt_val v w (lvl + 1) f
        (serFields w lvl ((k2, v2) :: kvs2) ++ closeGap w lvl ++ '}' :: rest) hv
        (by simp only [strChars, List.length_append, List.length_cons] at hfl; omega)
        (by rw [show serFields w lvl ((k2, v2) :: kvs2) ++ closeGap w lvl ++ '}' :: rest
              = ',' :: (sepGap w lvl ++ strChars k2 ++ ':' :: ' ' :: serVal w (lvl + 1) v2
                ++ serFields w lvl kvs2 ++ closeGap w lvl ++ '}' :: rest) from by
              simp [serFields]]
            rfl)
      have hlen2 : (strChars k2 ++ ':' :: ' ' :: serVal w (lvl + 1) v2
          ++ serFields w lvl kvs2).length + 1 < f := by
        simp only [strChars, serFields, List.length_append, List.length_cons] at hfl ⊢
        omega
      have htail := rt_fields k2 v2 kvs2 w lvl f rest hv2.1 hv2.2 hlen2
      rw [show strChars k ++ ':' :: ' ' :: serVal w (lvl + 1) v
            ++ serFields w lvl ((k2, v2) :: kvs2) ++ closeGap w lvl ++ '}' :: rest
          = '"' :: (k.data.flatMap escapeChar ++ '"' :: (':' :: ([' ']
            ++ (serVal w (lvl + 1) v ++ (serFields w lvl ((k2, v2) :: kvs2)
              ++ closeGap w lvl ++ '}' :: rest))))) from by
        simp [strChars],
        jparseFields_step, dropWs_cons (by decide)]
      simp only [scanStr_flatMap, List.reverse_nil, List.nil_append]
      simp only [show dropWs (':' :: ([' '] ++ (serVal w (lvl + 1) v
            ++ (serFields w lvl ((k2, v2) :: kvs2) ++ closeGap w lvl ++ '}' :: rest))))
          = ':' :: ([' '] ++ (serVal w (lvl + 1) v ++ (serFields w lvl ((k2, v2) :: kvs2)
            ++ closeGap w lvl ++ '}' :: rest)))
          from dropWs_cons (by decide) _,
        jparse_ws f [' '] (by decide), hval]
      rw [show serFields w lvl ((k2, v2) :: kvs2) ++ closeGap w lvl ++ '}' :: rest
          = ',' :: (sepGap w lvl ++ (strChars k2 ++ ':' :: ' ' :: serVal w (lvl + 1) v2
            ++ serFields w lvl kvs2 ++ closeGap w lvl ++ '}' :: rest)) from by
        simp [serFields]]
      simp only [show dropWs (',' :: (sepGap w lvl ++ (strChars k2 ++ ':' :: ' '
            :: serVal w (lvl + 1) v2 ++ serFields w lvl kvs2 ++ closeGap w lvl ++ '}' :: rest)))
          = ',' :: (sepGap w lvl ++ (strChars k2 ++ ':' :: ' ' :: serVal w (lvl + 1) v2
            ++ serFields w lvl kvs2 ++ closeGap w lvl ++ '}' :: rest))
          from dropWs_cons (by decide) _,
        jparseFields_ws f (sepGap w lvl) (sepGap_ws w lvl), htail, mk_data]
termination_by k v kvs _ _ _ _ _ _ _ => sizeOf v + sizeOf kvs
end

/-- The codec round trip behind the spec's round-trip property: whatever
`json.dumps` emits (in either indentation mode), `parseJson` reads back as
the original value. -/
theorem parseJson_dumps (w : Option Nat) (v : PyVal) (s : String)
    (h : findBad v = Option.none) (hd : dumps w v = .ok s) :
    parseJson s = some v := by
  have hs : s = String.mk (serVal w 0 v) := by
    unfold dumps at hd
    rw [h] at hd
    exact (Except.ok.injEq _ _ ▸ hd.symm : _)
  subst hs
  show (match jparse ((serVal w 0 v).length + 1) (serVal w 0 v) with
    | some (v, r) => if dropWs r = [] then some v else none
    | Option.none => none) = some v
  have := rt_val v w 0 ((serVal w 0 v).length + 1) [] h (by omega) rfl
  rw [List.append_nil] at this
  rw [this]
  rfl

theorem dumps_ok (w : Option Nat) (v : PyVal) (h : findBad v = Option.none) :
    dumps w v = .ok (String.mk (serVal w 0 v)) := by
  unfold dumps
  rw [h]

theorem dumps_err (w : Option Nat) (v : PyVal) (ty : String)
    (h : findBad v = some ty) :
    dumps w v = .error ("Object of type " ++ ty ++ " is not JSON serializable") := by
  unfold dumps
  rw [h]

/-- A value stored in a serializable dictionary is serializable. -/
theorem dictGet_serializable {kvs : List (String × PyVal)} {k : String} {v : PyVal}
    (hget : dictGet kvs k = some v) (h : findBadFields kvs = Option.none) :
    findBad v = Option.none := by
  induction kvs with
  | nil => simp [dictGet] at hget
  | cons kv rest ih =>
    obtain ⟨k', v'⟩ := kv
    obtain ⟨hv', hrest⟩ := findBadFields_cons.mp h
    rw [dictGet] at hget
    by_cases hk : k' = k
    · rw [if_pos hk] at hget
      cases hget
      exact hv'
    · rw [if_neg hk] at hget
      exact ih hget hrest

theorem testParamOf_serializable {e : List (String × PyVal)}
    (h : findBadFields e = Option.none) : findBad (testParamOf e) = Option.none := by
  unfold testParamOf
  cases hget : dictGet e "test" with
  | none => rfl
  | some v => simpa using dictGet_serializable hget h

/-- The success payload is serializable whenever the event is: every other
field is a string, and `test_param` comes out of the event. -/
theorem successPayload_serializable (e : List (String × PyVal))
    (c : Option LambdaContext) (now : DateTime) (ver : VersionInfo)
    (h : findBadFields e = Option.none) :
    findBad (successPayload e c now ver) = Option.none := by
  have ht := testParamOf_serializable h
  simp [successPayload, findBad, findBadFields, h, ht]

/-- The error payload is always serializable: all four fields are strings. -/
theorem errorPayload_serializable (e : String) (now : DateTime) :
    findBad (errorPayload e now) = Option.none := rfl

/-- On a serializable event the `try` suite completes: 200 envelope whose
body is the indent-2 serialization of the success payload, three log lines. -/
theorem tryBlock_ok (e : List (String × PyVal)) (c : Option LambdaContext)
    (now : DateTime) (ver : VersionInfo) (h : findBadFields e = Option.none) :
    tryBlock e c now ver = .ok (.dict [
      ("statusCode", .int 200),
      ("headers", .dict [
        ("Content-Type", .str "application/json; charset=utf-8"),
        ("X-Toukon-Power", .str "MAX"),
        ("X-Python-Engine", .str "True")]),
      ("body", .str (String.mk (serVal (some 2) 0 (successPayload e c now ver))))],
      ["🔥 闘魂Python Lambda 開始!",
       "受信イベント: " ++ String.mk (serVal Option.none 0 (.dict e)),
       "🔥 闘魂Python Lambda 完了!"]) := by
  have hev : findBad (.dict e) = Option.none := h
  unfold tryBlock
  rw [dumps_ok Option.none (.dict e) hev,
    dumps_ok (some 2) (successPayload e c now ver) (successPayload_serializable e c now ver h)]
  rfl

/-- On a non-serializable event the `try` suite raises at the event-logging
line, after the banner log only. -/
theorem tryBlock_err (e : List (String × PyVal)) (c : Option LambdaContext)
    (now : DateTime) (ver : VersionInfo) (ty : String)
    (h : findBadFields e = some ty) :
    tryBlock e c now ver = .error
      ("Object of type " ++ ty ++ " is not JSON serializable",
       ["🔥 闘魂Python Lambda 開始!"]) := by
  have hev : findBad (.dict e) = some ty := h
  unfold tryBlock
  rw [dumps_err Option.none (.dict e) ty hev]

/-- Success-path form of the handler. -/
theorem lambda_handler_ok (e : List (String × PyVal)) (c : Option LambdaContext)
    (w : World) (h : findBadFields e = Option.none) :
    lambda_handler e c w = .ok (.dict [
      ("statusCode", .int 200),
      ("headers", .dict [
        ("Content-Type", .str "application/json; charset=utf-8"),
        ("X-Toukon-Power", .str "MAX"),
        ("X-Python-Engine", .str "True")]),
      ("body", .str (String.mk (serVal (some 2) 0 (successPayload e c w.now w.version))))],
      w.logHistory ++
      ["🔥 闘魂Python Lambda 開始!",
       "受信イベント: " ++ String.mk (serVal Option.none 0 (.dict e)),
       "🔥 闘魂Python Lambda 完了!"]) := by
  unfold lambda_handler
  rw [tryBlock_ok e c w.now w.version h]

/-- Error-path form of the handler: the caught exception's text is embedded
in the 500 envelope's body. -/
theorem lambda_handler_err (e : List (String × PyVal)) (c : Option LambdaContext)
    (w : World) (ty : String) (h : findBadFields e = some ty) :
    lambda_handler e c w = .ok (.dict [
      ("statusCode", .int 500),
      ("headers", .dict [
        ("Content-Type", .str "application/json; charset=utf-8"),
        ("X-Toukon-Error", .str "True")]),
      ("body", .str (String.mk (serVal (some 2) 0
        (errorPayload ("Object of type " ++ ty ++ " is not JSON serializable") w.now))))],
      w.logHistory ++
      ["🔥 闘魂Python Lambda 開始!",
       "💥 闘魂エラー発生: " ++ ("Object of type " ++ ty ++ " is not JSON serializable")]) := by
  unfold lambda_handler
  rw [tryBlock_err e c w.now w.version ty h]
  simp only [dumps_ok (some 2)
    (errorPayload ("Object of type " ++ ty ++ " is not JSON serializable") w.now)
    (errorPayload_serializable _ _)]
  simp

theorem data_append (a b : String) : (a ++ b).data = a.data ++ b.data := rfl

/-- Digit-count bound: below `10 ^ k` one needs at most `k` digits. -/
theorem natChars_len_le : ∀ n k, 1 ≤ k → n < 10 ^ k → (natChars n).length ≤ k := by
  intro n
  induction n using Nat.strong_induction_on with
  | _ n ih =>
    intro k hk hn
    rw [natChars_eq]
    by_cases h : n < 10
    · simp only [if_pos h, List.length_singleton]
      omega
    · simp only [if_neg h, List.length_append, List.length_singleton]
      have hk2 : 2 ≤ k := by
        by_contra hc
        have : k = 1 := by omega
        subst this
        simp at hn
        omega
      have hdiv : n / 10 < 10 ^ (k - 1) := by
        rw [Nat.div_lt_iff_lt_mul (by omega)]
        calc n < 10 ^ k := hn
        _ = 10 ^ (k - 1) * 10 := by
          rw [← pow_succ]
          congr 1
          omega
      have := ih (n / 10) (Nat.div_lt_self (by omega) (by omega)) (k - 1) (by omega) hdiv
      omega

theorem zeroPad_len (k n : Nat) (hk : 1 ≤ k) (h : n < 10 ^ k) :
    (zeroPad k n).length = k := by
  have := natChars_len_le n k hk h
  simp only [zeroPad, List.length_append, List.length_replicate]
  omega

theorem zeroPad_digits (k n : Nat) : ∀ c ∈ zeroPad k n, isDigitChar c = true := by
  intro c hc
  rcases List.mem_append.mp hc with hc | hc
  · rw [List.eq_of_mem_replicate hc]
    rfl
  · exact natChars_digits n c hc

theorem exists_two (l : List Char) (h : l.length = 2) : ∃ a b, l = [a, b] := by
  match l, h with
  | [a, b], _ => exact ⟨a, b, rfl⟩

theorem exists_four (l : List Char) (h : l.length = 4) : ∃ a b c d, l = [a, b, c, d] := by
  match l, h with
  | [a, b, c, d], _ => exact ⟨a, b, c, d, rfl⟩

theorem exists_six (l : List Char) (h : l.length = 6) :
    ∃ a b c d e f, l = [a, b, c, d, e, f] := by
  match l, h with
  | [a, b, c, d, e, f], _ => exact ⟨a, b, c, d, e, f, rfl⟩

/-- The serialized timestamp is a well-formed ISO-8601 UTC stamp with a
trailing `Z`, for any clock reading `datetime` can produce. -/
theorem isoformat_isIso (t : DateTime) (h : t.valid) :
    isIso8601Z (isoformat t ++ "Z") = true := by
  obtain ⟨hy1, hy2, hm1, hm2, hd1, hd2, hh, hmin, hs, hus⟩ := h
  obtain ⟨y1, y2, y3, y4, hy⟩ := exists_four _ (zeroPad_len 4 t.year (by omega) (by omega))
  obtain ⟨a1, a2, ha⟩ := exists_two _ (zeroPad_len 2 t.month (by omega) (by omega))
  obtain ⟨b1, b2, hb⟩ := exists_two _ (zeroPad_len 2 t.day (by omega) (by omega))
  obtain ⟨c1, c2, hc⟩ := exists_two _ (zeroPad_len 2 t.hour (by omega) (by omega))
  obtain ⟨d1, d2, hd⟩ := exists_two _ (zeroPad_len 2 t.minute (by omega) (by omega))
  obtain ⟨e1, e2, he⟩ := exists_two _ (zeroPad_len 2 t.second (by omega) (by omega))
  have hYd := zeroPad_digits 4 t.year
  rw [hy] at hYd
  have hMd := zeroPad_digits 2 t.month
  rw [ha] at hMd
  have hBd := zeroPad_digits 2 t.day
  rw [hb] at hBd
  have hCd := zeroPad_digits 2 t.hour
  rw [hc] at hCd
  have hDd := zeroPad_digits 2 t.minute
  rw [hd] at hDd
  have hEd := zeroPad_digits 2 t.second
  rw [he] at hEd
  have hdigit : ∀ c ∈ [y1, y2, y3, y4, a1, a2, b1, b2, c1, c2, d1, d2, e1, e2],
      isDigitChar c = true := by
    intro c hcm
    simp only [List.mem_cons, List.not_mem_nil, or_false] at hcm
    rcases hcm with rfl | rfl | rfl | rfl | rfl | rfl | rfl | rfl | rfl | rfl | rfl | rfl
      | rfl | rfl
    exacts [hYd _ (by simp), hYd _ (by simp), hYd _ (by simp), hYd _ (by simp),
      hMd _ (by simp), hMd _ (by simp), hBd _ (by simp), hBd _ (by simp),
      hCd _ (by simp), hCd _ (by simp), hDd _ (by simp), hDd _ (by simp),
      hEd _ (by simp), hEd _ (by simp)]
  unfold isIso8601Z
  rw [data_append]
  show (match (zeroPad 4 t.year ++ '-' :: zeroPad 2 t.month ++ '-' :: zeroPad 2 t.day
      ++ 'T' :: zeroPad 2 t.hour ++ ':' :: zeroPad 2 t.minute ++ ':' :: zeroPad 2 t.second
      ++ (if t.microsecond = 0 then [] else '.' :: zeroPad 6 t.microsecond)) ++ ['Z'] with
    | y1 :: y2 :: y3 :: y4 :: '-' :: m1 :: m2 :: '-' :: d1 :: d2 :: 'T' ::
        h1 :: h2 :: ':' :: i1 :: i2 :: ':' :: s1 :: s2 :: rest =>
      [y1, y2, y3, y4, m1, m2, d1, d2, h1, h2, i1, i2, s1, s2].all isDigitChar &&
      (match rest with
       | ['Z'] => true
       | '.' :: u1 :: u2 :: u3 :: u4 :: u5 :: u6 :: 'Z' :: [] =>
         [u1, u2, u3, u4, u5, u6].all isDigitChar
       | _ => false)
    | _ => false) = true
  rw [hy, ha, hb, hc, hd, he]
  by_cases hz : t.microsecond = 0
  · rw [if_pos hz]
    simp only [List.cons_append, List.nil_append, List.append_nil, Bool.and_eq_true,
      List.all_eq_true]
    exact ⟨fun c hc => hdigit c (by simpa using hc), trivial⟩
  · rw [if_neg hz]
    obtain ⟨u1, u2, u3, u4, u5, u6, hu⟩ :=
      exists_six _ (zeroPad_len 6 t.microsecond (by omega) (by omega))
    rw [hu]
    simp only [List.cons_append, List.nil_append, Bool.and_eq_true, List.all_eq_true]
    constructor
    · exact fun c hc => hdigit c (by simpa using hc)
    · intro c hcm
      have hUd := zeroPad_digits 6 t.microsecond
      rw [hu] at hUd
      simp only [List.mem_cons, List.not_mem_nil, or_false] at hcm
      rcases hcm with rfl | rfl | rfl | rfl | rfl | rfl
      exacts [hUd _ (by simp), hUd _ (by simp), hUd _ (by simp), hUd _ (by simp),
        hUd _ (by simp), hUd _ (by simp)]

theorem isoformat_endsZ (t : DateTime) :
    ∃ pre, (isoformat t ++ "Z").data = pre ++ ['Z'] :=
  ⟨(isoformat t).data, by rw [data_append]⟩

theorem envBody_mk (sc hdrs : PyVal) (b : String) :
    envBody (.dict [("statusCode", sc), ("headers", hdrs), ("body", .str b)]) = some b := by
  simp [envBody, pvGet, dictGet]

theorem envStatus_mk (sc hdrs : PyVal) (b : String) :
    envStatus (.dict [("statusCode", sc), ("headers", hdrs), ("body", .str b)]) = some sc := by
  simp [envStatus, pvGet, dictGet]

theorem envHeaders_mk (sc hdrs : PyVal) (b : String) :
    envHeaders (.dict [("statusCode", sc), ("headers", hdrs), ("body", .str b)])
      = some hdrs := by
  simp [envHeaders, pvGet, dictGet]

theorem serializable_iff (v : PyVal) :
    serializable v = true ↔ findBad v = Option.none := by
  simp [serializable, Option.isNone_iff_eq_none]

theorem successPayload_message (e : List (String × PyVal)) (c : Option LambdaContext)
    (now : DateTime) (ver : VersionInfo) :
    pvGet (successPayload e c now ver) "message"
      = some (.str ("🔥 闘魂Python Lambda 成功だ！ - " ++ pyStr (inputMessageOf e))) := by
  simp [successPayload, pvGet, dictGet]

theorem successPayload_timestamp (e : List (String × PyVal)) (c : Option LambdaContext)
    (now : DateTime) (ver : VersionInfo) :
    pvGet (successPayload e c now ver) "timestamp"
      = some (.str (isoformat now ++ "Z")) := by
  simp [successPayload, pvGet, dictGet]

theorem successPayload_requestId (e : List (String × PyVal)) (c : Option LambdaContext)
    (now : DateTime) (ver : VersionInfo) :
    pvGet (successPayload e c now ver) "request_id"
      = some (.str (requestIdOf c)) := by
  simp [successPayload, pvGet, dictGet]

theorem successPayload_inputEvent (e : List (String × PyVal)) (c : Option LambdaContext)
    (now : DateTime) (ver : VersionInfo) :
    pvGet (successPayload e c now ver) "input_event" = some (.dict e) := by
  simp [successPayload, pvGet, dictGet]

theorem successPayload_status (e : List (String × PyVal)) (c : Option LambdaContext)
    (now : DateTime) (ver : VersionInfo) :
    pvGet (successPayload e c now ver) "status" = some (.str "VICTORY!") := by
  simp [successPayload, pvGet, dictGet]

theorem successPayload_power (e : List (String × PyVal)) (c : Option LambdaContext)
    (now : DateTime) (ver : VersionInfo) :
    pvGet (successPayload e c now ver) "toukon_power" = some (.str "MAX") := by
  simp [successPayload, pvGet, dictGet]

theorem successPayload_keys (e : List (String × PyVal)) (c : Option LambdaContext)
    (now : DateTime) (ver : VersionInfo) :
    pvKeys (successPayload e c now ver) = some ["message", "timestamp", "request_id",
      "python_version", "input_event", "processed_by", "status", "toukon_power",
      "test_param"] := by
  simp [successPayload, pvKeys]

/-- On a serializable event the parsed response body is exactly the
constructed success payload. -/
theorem handlerBodyJson_ok (e : List (String × PyVal)) (c : Option LambdaContext)
    (w : World) (h : findBadFields e = Option.none) :
    handlerBodyJson e c w = some (successPayload e c w.now w.version) := by
  have hp := successPayload_serializable e c w.now w.version h
  unfold handlerBodyJson
  rw [lambda_handler_ok e c w h]
  simp only [envBody_mk, Option.some_bind]
  exact parseJson_dumps (some 2) _ _ hp (dumps_ok _ _ hp)

/-- On a non-serializable event the parsed response body is exactly the
constructed error payload. -/
theorem handlerBodyJson_err (e : List (String × PyVal)) (c : Option LambdaContext)
    (w : World) (ty : String) (h : findBadFields e = some ty) :
    handlerBodyJson e c w = some
      (errorPayload ("Object of type " ++ ty ++ " is not JSON serializable") w.now) := by
  unfold handlerBodyJson
  rw [lambda_handler_err e c w ty h]
  simp only [envBody_mk, Option.some_bind]
  exact parseJson_dumps (some 2) _ _ (errorPayload_serializable _ _)
    (dumps_ok _ _ (errorPayload_serializable _ _))

/-- C1: for every invocation of `lambda_handler`, the `request_id` field of
the success body equals `"local"` when the context is null, equals the
context's `aws_request_id` attribute when the context is non-null and has
that attribute, and equals `"unknown"` when the context is non-null but
lacks it.  Stated over the parsed success body, which exists exactly on
serializable events. -/
theorem C1_request_id (e : List (String × PyVal)) (c : Option LambdaContext)
    (w : World) (h : serializable (.dict e) = true) :
    ∃ p, handlerBodyJson e c w = some p ∧
      (c = Option.none → pvGet p "request_id" = some (.str "local")) ∧
      (∀ ctx rid, c = some ctx → ctx.aws_request_id = some rid →
        pvGet p "request_id" = some (.str rid)) ∧
      (∀ ctx, c = some ctx → ctx.aws_request_id = Option.none →
        pvGet p "request_id" = some (.str "unknown")) := by
  have hfb : findBadFields e = Option.none := (serializable_iff _).mp h
  refine ⟨successPayload e c w.now w.version, handlerBodyJson_ok e c w hfb, ?_, ?_, ?_⟩
  · intro hc
    subst hc
    simpa [requestIdOf] using successPayload_requestId e Option.none w.now w.version
  · intro ctx rid hc hr
    subst hc
    have := successPayload_requestId e (some ctx) w.now w.version
    simpa [requestIdOf, hr] using this
  · intro ctx hc hr
    subst hc
    have := successPayload_requestId e (some ctx) w.now w.version
    simpa [requestIdOf, hr] using this

/-- C1 witness: the empty event with a null context yields a parsed success
body whose `request_id` is `"local"`. -/
theorem C1_request_id_witness :
    ∃ p, handlerBodyJson [] Option.none ⟨⟨2026, 10, 12, 3, 4, 5, 0⟩, ⟨3, 12, 1⟩, []⟩
      = some p ∧ pvGet p "request_id" = some (.str "local") := by
  obtain ⟨p, h1, h2, _, _⟩ :=
    C1_request_id [] Option.none ⟨⟨2026, 10, 12, 3, 4, 5, 0⟩, ⟨3, 12, 1⟩, []⟩ rfl
  exact ⟨p, h1, h2 rfl⟩

/-- C2: the handler envelope carries statusCode 200 exactly when no step of
the success path (including both serializations) raises, and carries
statusCode 500 whenever the try suite raises. -/
theorem C2_statusCode (e : List (String × PyVal)) (c : Option LambdaContext) (w : World) :
    ∃ resp logs, lambda_handler e c w = .ok (resp, logs) ∧
      (envStatus resp = some (.int 200) ↔ (tryBlock e c w.now w.version).isOk = true) ∧
      ((tryBlock e c w.now w.version).isOk = false → envStatus resp = some (.int 500)) := by
  cases hfb : findBadFields e with
  | none =>
    refine ⟨_, _, lambda_handler_ok e c w hfb, ?_, ?_⟩
    · rw [envStatus_mk, tryBlock_ok e c w.now w.version hfb]
      simp [Except.isOk, Except.toBool]
    · rw [tryBlock_ok e c w.now w.version hfb]
      intro hcontra
      simp [Except.isOk, Except.toBool] at hcontra
  | some ty =>
    refine ⟨_, _, lambda_handler_err e c w ty hfb, ?_, ?_⟩
    · rw [envStatus_mk, tryBlock_err e c w.now w.version ty hfb]
      simp [Except.isOk, Except.toBool]
    · intro _
      rw [envStatus_mk]

/-- C3: for every event and context the handler returns a well-formed
envelope (integer `statusCode`, string-valued `headers` mapping, string
`body`) and never raises to its caller; in the model the exception-logging
and the catch block's own serialization are total, which is exactly the
claim's proviso. -/
theorem C3_wellFormed (e : List (String × PyVal)) (c : Option LambdaContext) (w : World) :
    ∃ resp logs, lambda_handler e c w = .ok (resp, logs) ∧
      wellFormedEnvelope resp = true := by
  cases hfb : findBadFields e with
  | none =>
    exact ⟨_, _, lambda_handler_ok e c w hfb,
      by simp [wellFormedEnvelope, envStatus, envHeaders, envBody, pvGet, dictGet]⟩
  | some ty =>
    exact ⟨_, _, lambda_handler_err e c w ty hfb,
      by simp [wellFormedEnvelope, envStatus, envHeaders, envBody, pvGet, dictGet]⟩

/-- C4: on the success path, parsing the returned envelope's body string as
JSON yields exactly the payload mapping that was constructed. -/
theorem C4_roundTrip (e : List (String × PyVal)) (c : Option LambdaContext)
    (w : World) (h : serializable (.dict e) = true) :
    ∃ resp logs body, lambda_handler e c w = .ok (resp, logs) ∧
      envBody resp = some body ∧
      parseJson body = some (successPayload e c w.now w.version) := by
  have hfb : findBadFields e = Option.none := (serializable_iff _).mp h
  have hp := successPayload_serializable e c w.now w.version hfb
  exact ⟨_, _, _, lambda_handler_ok e c w hfb, envBody_mk _ _ _,
    parseJson_dumps (some 2) _ _ hp (dumps_ok _ _ hp)⟩

/-- C4 witness: a concrete event round-trips through serialize-then-parse. -/
theorem C4_roundTrip_witness :
    ∃ resp logs body,
      lambda_handler [("test", .str "toukon"), ("message", .str "hello")] Option.none
        ⟨⟨2026, 10, 12, 3, 4, 5, 0⟩, ⟨3, 12, 1⟩, []⟩ = .ok (resp, logs) ∧
      envBody resp = some body ∧
      parseJson body = some (successPayload
        [("test", .str "toukon"), ("message", .str "hello")] Option.none
        ⟨2026, 10, 12, 3, 4, 5, 0⟩ ⟨3, 12, 1⟩) :=
  C4_roundTrip [("test", .str "toukon"), ("message", .str "hello")] Option.none
    ⟨⟨2026, 10, 12, 3, 4, 5, 0⟩, ⟨3, 12, 1⟩, []⟩ rfl

/-- C5: whenever the try suite raises and the exception is caught, the
returned envelope has statusCode 500, headers exactly `Content-Type` and
`X-Toukon-Error: True`, and a body whose JSON fields are `error`, `message`
(the exception's string representation), `timestamp`, and `status` equal to
`"ERROR"`. -/
theorem C5_errorEnvelope (e : List (String × PyVal)) (c : Option LambdaContext)
    (w : World) (err : String) (logs0 : List String)
    (h : tryBlock e c w.now w.version = .error (err, logs0)) :
    ∃ body, lambda_handler e c w = .ok (.dict [
        ("statusCode", .int 500),
        ("headers", .dict [
          ("Content-Type", .str "application/json; charset=utf-8"),
          ("X-Toukon-Error", .str "True")]),
        ("body", .str body)],
        w.logHistory ++ logs0 ++ ["💥 闘魂エラー発生: " ++ err]) ∧
      parseJson body = some (.dict [
        ("error", .str "闘魂処理でエラーが発生しました"),
        ("message", .str err),
        ("timestamp", .str (isoformat w.now ++ "Z")),
        ("status", .str "ERROR")]) := by
  refine ⟨String.mk (serVal (some 2) 0 (errorPayload err w.now)), ?_, ?_⟩
  · unfold lambda_handler
    rw [h]
    simp only [dumps_ok (some 2) (errorPayload err w.now) (errorPayload_serializable _ _)]
  · exact parseJson_dumps (some 2) _ _ (errorPayload_serializable _ _)
      (dumps_ok _ _ (errorPayload_serializable _ _))

/-- C5 witness: an event holding a `bytes` object raises at serialization
and produces the described 500 envelope. -/
theorem C5_errorEnvelope_witness :
    ∃ body, lambda_handler [("x", .obj "bytes")] Option.none
        ⟨⟨2026, 10, 12, 3, 4, 5, 0⟩, ⟨3, 12, 1⟩, []⟩ = .ok (.dict [
        ("statusCode", .int 500),
        ("headers", .dict [
          ("Content-Type", .str "application/json; charset=utf-8"),
          ("X-Toukon-Error", .str "True")]),
        ("body", .str body)],
        [] ++ ["🔥 闘魂Python Lambda 開始!"]
          ++ ["💥 闘魂エラー発生: " ++ "Object of type bytes is not JSON serializable"]) ∧
      parseJson body = some (.dict [
        ("error", .str "闘魂処理でエラーが発生しました"),
        ("message", .str "Object of type bytes is not JSON serializable"),
        ("timestamp", .str (isoformat ⟨2026, 10, 12, 3, 4, 5, 0⟩ ++ "Z")),
        ("status", .str "ERROR")]) :=
  C5_errorEnvelope [("x", .obj "bytes")] Option.none
    ⟨⟨2026, 10, 12, 3, 4, 5, 0⟩, ⟨3, 12, 1⟩, []⟩
    "Object of type bytes is not JSON serializable" ["🔥 闘魂Python Lambda 開始!"] rfl

/-- C6: on the success path the `input_event` field of the success body
equals the original event mapping; the embedding is pure, so the handler
cannot mutate the event it echoes. -/
theorem C6_inputEvent (e : List (String × PyVal)) (c : Option LambdaContext)
    (w : World) (h : serializable (.dict e) = true) :
    ∃ p, handlerBodyJson e c w = some p ∧ pvGet p "input_event" = some (.dict e) := by
  have hfb : findBadFields e = Option.none := (serializable_iff _).mp h
  exact ⟨_, handlerBodyJson_ok e c w hfb, successPayload_inputEvent e c w.now w.version⟩

/-- C6 witness: a concrete event is echoed verbatim. -/
theorem C6_inputEvent_witness :
    ∃ p, handlerBodyJson [("k", .list [.int 1, .null])] Option.none
        ⟨⟨2026, 10, 12, 3, 4, 5, 0⟩, ⟨3, 12, 1⟩, []⟩ = some p ∧
      pvGet p "input_event" = some (.dict [("k", .list [.int 1, .null])]) :=
  C6_inputEvent [("k", .list [.int 1, .null])] Option.none
    ⟨⟨2026, 10, 12, 3, 4, 5, 0⟩, ⟨3, 12, 1⟩, []⟩ rfl

/-- C7: without a `message` key the success body's `message` field contains
the themed default greeting fragment; with `message = m` it contains `m` as
a substring. -/
theorem C7_message (e : List (String × PyVal)) (c : Option LambdaContext)
    (w : World) (h : serializable (.dict e) = true) :
    ∃ p, handlerBodyJson e c w = some p ∧
      (dictGet e "message" = Option.none →
        ∃ msg, pvGet p "message" = some (.str msg) ∧ strContains msg "闘魂注入!") ∧
      (∀ m, dictGet e "message" = some (.str m) →
        ∃ msg, pvGet p "message" = some (.str msg) ∧ strContains msg m) := by
  have hfb : findBadFields e = Option.none := (serializable_iff _).mp h
  refine ⟨_, handlerBodyJson_ok e c w hfb, ?_, ?_⟩
  · intro hnone
    refine ⟨_, successPayload_message e c w.now w.version, ?_⟩
    refine ⟨"🔥 闘魂Python Lambda 成功だ！ - ".data, [], ?_⟩
    rw [data_append]
    unfold inputMessageOf
    rw [hnone]
    simp [pyStr]
  · intro m hm
    refine ⟨_, successPayload_message e c w.now w.version, ?_⟩
    refine ⟨"🔥 闘魂Python Lambda 成功だ！ - ".data, [], ?_⟩
    rw [data_append]
    unfold inputMessageOf
    rw [hm]
    simp [pyStr]

/-- C7 witness: with `message = "hello"` the body's `message` contains
`"hello"`. -/
theorem C7_message_witness :
    ∃ p, handlerBodyJson [("message", .str "hello")] Option.none
        ⟨⟨2026, 10, 12, 3, 4, 5, 0⟩, ⟨3, 12, 1⟩, []⟩ = some p ∧
      ∃ msg, pvGet p "message" = some (.str msg) ∧ strContains msg "hello" := by
  obtain ⟨p, h1, _, h3⟩ :=
    C7_message [("message", .str "hello")] Option.none
      ⟨⟨2026, 10, 12, 3, 4, 5, 0⟩, ⟨3, 12, 1⟩, []⟩ rfl
  exact ⟨p, h1, h3 "hello" rfl⟩

/-- C8: on the success path the envelope has statusCode 200, exactly the
three success headers, and a body whose JSON fields are exactly the nine
payload fields with `status = "VICTORY!"` and `toukon_power = "MAX"`. -/
theorem C8_successEnvelope (e : List (String × PyVal)) (c : Option LambdaContext)
    (w : World) (h : serializable (.dict e) = true) :
    ∃ body logs, lambda_handler e c w = .ok (.dict [
        ("statusCode", .int 200),
        ("headers", .dict [
          ("Content-Type", .str "application/json; charset=utf-8"),
          ("X-Toukon-Power", .str "MAX"),
          ("X-Python-Engine", .str "True")]),
        ("body", .str body)], logs) ∧
      parseJson body = some (successPayload e c w.now w.version) ∧
      pvKeys (successPayload e c w.now w.version) = some ["message", "timestamp",
        "request_id", "python_version", "input_event", "processed_by", "status",
        "toukon_power", "test_param"] ∧
      pvGet (successPayload e c w.now w.version) "status" = some (.str "VICTORY!") ∧
      pvGet (successPayload e c w.now w.version) "toukon_power" = some (.str "MAX") := by
  have hfb : findBadFields e = Option.none := (serializable_iff _).mp h
  have hp := successPayload_serializable e c w.now w.version hfb
  exact ⟨_, _, lambda_handler_ok e c w hfb,
    parseJson_dumps (some 2) _ _ hp (dumps_ok _ _ hp),
    successPayload_keys e c w.now w.version,
    successPayload_status e c w.now w.version,
    successPayload_power e c w.now w.version⟩

/-- C8 witness: the empty event yields the full success envelope shape. -/
theorem C8_successEnvelope_witness :
    ∃ body logs, lambda_handler [] Option.none
        ⟨⟨2026, 10, 12, 3, 4, 5, 0⟩, ⟨3, 12, 1⟩, []⟩ = .ok (.dict [
        ("statusCode", .int 200),
        ("headers", .dict [
          ("Content-Type", .str "application/json; charset=utf-8"),
          ("X-Toukon-Power", .str "MAX"),
          ("X-Python-Engine", .str "True")]),
        ("body", .str body)], logs) ∧
      parseJson body = some (successPayload [] Option.none
        ⟨2026, 10, 12, 3, 4, 5, 0⟩ ⟨3, 12, 1⟩) ∧
      pvKeys (successPayload [] Option.none ⟨2026, 10, 12, 3, 4, 5, 0⟩ ⟨3, 12, 1⟩)
        = some ["message", "timestamp", "request_id", "python_version", "input_event",
          "processed_by", "status", "toukon_power", "test_param"] ∧
      pvGet (successPayload [] Option.none ⟨2026, 10, 12, 3, 4, 5, 0⟩ ⟨3, 12, 1⟩)
        "status" = some (.str "VICTORY!") ∧
      pvGet (successPayload [] Option.none ⟨2026, 10, 12, 3, 4, 5, 0⟩ ⟨3, 12, 1⟩)
        "toukon_power" = some (.str "MAX") :=
  C8_successEnvelope [] Option.none ⟨⟨2026, 10, 12, 3, 4, 5, 0⟩, ⟨3, 12, 1⟩, []⟩ rfl

/-- C9: on both paths the body's `timestamp` field is the handler's UTC
clock reading in ISO-8601 format with a literal `Z` suffix, and that string
passes an ISO-8601-with-Z format check. -/
theorem C9_timestamp (e : List (String × PyVal)) (c : Option LambdaContext)
    (w : World) (h : w.now.valid) :
    ∃ resp logs body p, lambda_handler e c w = .ok (resp, logs) ∧
      envBody resp = some body ∧ parseJson body = some p ∧
      pvGet p "timestamp" = some (.str (isoformat w.now ++ "Z")) ∧
      isIso8601Z (isoformat w.now ++ "Z") = true ∧
      (∃ pre, (isoformat w.now ++ "Z").data = pre ++ ['Z']) := by
  cases hfb : findBadFields e with
  | none =>
    have hp := successPayload_serializable e c w.now w.version hfb
    exact ⟨_, _, _, _, lambda_handler_ok e c w hfb, envBody_mk _ _ _,
      parseJson_dumps (some 2) _ _ hp (dumps_ok _ _ hp),
      successPayload_timestamp e c w.now w.version,
      isoformat_isIso w.now h, isoformat_endsZ w.now⟩
  | some ty =>
    exact ⟨_, _, _, _, lambda_handler_err e c w ty hfb, envBody_mk _ _ _,
      parseJson_dumps (some 2) _ _ (errorPayload_serializable _ _)
        (dumps_ok _ _ (errorPayload_serializable _ _)),
      by simp [errorPayload, pvGet, dictGet],
      isoformat_isIso w.now h, isoformat_endsZ w.now⟩

/-- C9 witness: a concrete valid clock reading yields a checkable
`Z`-suffixed ISO-8601 timestamp field. -/
theorem C9_timestamp_witness :
    ∃ resp logs body p,
      lambda_handler [] Option.none ⟨⟨2026, 10, 12, 3, 4, 5, 123456⟩, ⟨3, 12, 1⟩, []⟩
        = .ok (resp, logs) ∧
      envBody resp = some body ∧ parseJson body = some p ∧
      pvGet p "timestamp"
        = some (.str (isoformat ⟨2026, 10, 12, 3, 4, 5, 123456⟩ ++ "Z")) ∧
      isIso8601Z (isoformat ⟨2026, 10, 12, 3, 4, 5, 123456⟩ ++ "Z") = true ∧
      (∃ pre, (isoformat ⟨2026, 10, 12, 3, 4, 5, 123456⟩ ++ "Z").data = pre ++ ['Z']) :=
  C9_timestamp [] Option.none ⟨⟨2026, 10, 12, 3, 4, 5, 123456⟩, ⟨3, 12, 1⟩, []⟩
    (by decide)

/-- C10: the handler is deterministic modulo its environment reads: two
invocations with the same event, context, clock reading, and runtime
version return equal envelopes, whatever the rest of the world (here, the
accumulated log history) looks like. -/
theorem C10_deterministic (e : List (String × PyVal)) (c : Option LambdaContext)
    (w1 w2 : World) (hn : w1.now = w2.now) (hv : w1.version = w2.version) :
    (lambda_handler e c w1).map Prod.fst = (lambda_handler e c w2).map Prod.fst := by
  obtain ⟨n1, v1, l1⟩ := w1
  obtain ⟨n2, v2, l2⟩ := w2
  cases hn
  cases hv
  unfold lambda_handler
  cases htb : tryBlock e c n1 v1 with
  | ok r => rfl
  | error pr =>
    obtain ⟨err, logs0⟩ := pr
    cases hd : dumps (some 2) (errorPayload err n1) with
    | ok body => rfl
    | error e2 => rfl

/-- C10 witness: two worlds equal in clock and version but with different
log histories yield the same envelope. -/
theorem C10_deterministic_witness :
    (lambda_handler [] Option.none
      ⟨⟨2026, 10, 12, 3, 4, 5, 0⟩, ⟨3, 12, 1⟩, []⟩).map Prod.fst =
    (lambda_handler [] Option.none
      ⟨⟨2026, 10, 12, 3, 4, 5, 0⟩, ⟨3, 12, 1⟩, ["earlier line"]⟩).map Prod.fst :=
  C10_deterministic [] Option.none
    ⟨⟨2026, 10, 12, 3, 4, 5, 0⟩, ⟨3, 12, 1⟩, []⟩
    ⟨⟨2026, 10, 12, 3, 4, 5, 0⟩, ⟨3, 12, 1⟩, ["earlier line"]⟩ rfl rfl
